import Mathlib

/-!
# Verification of the chesscoach engine/coaching pipeline

Shallow embedding of the core logic of the repository: the Stockfish
adapter (`useStockfish`: session handshake, option commands, the
`analyze` request/listener/timeout machinery), the protocol parser
(the `info`/`bestmove` line handling inside `analyze`'s listener), the
opening matcher (`detectOpening`/`tryMatch` over the static `OPENINGS`
book), the move grader (`gradeFromLoss`), the rationale generator
(`explainHeuristic`), and the piece-drop handlers (`onPieceDrop`,
`engineMove`) of both application variants.

The repository contains two near-duplicate variants of the application:
`src/App.jsx` (search limited by depth, no analysis timeout, Ready on
`uciok` alone) and an unnamed second copy (search limited by movetime,
safety timeout at `movetime + 600`, Ready only after `readyok`).  Where
the two differ, definitions carry an `A` suffix for the `src/App.jsx`
variant and a `B` suffix for the movetime variant.

The board-state collaborator (chess.js) and the engine process are
external to the repository; they are modelled as explicit parameters
(legal-move lists, a `BoardApi` record, analysis-result functions), and
concrete instantiations used in concrete evaluations state standard
chess facts (e.g. the legal moves of the initial position).
-/

namespace ChessCoach

/-! ## String helpers (JS string operations used by the source) -/

/-- JS `haystack.includes(needle)` : substring containment, as a Bool
scan over the character list. -/
def strContainsAux (needle : List Char) : List Char → Bool
  | [] => needle.isEmpty
  | c :: rest => (needle.isPrefixOf (c :: rest)) || strContainsAux needle rest

/-- JS `text.includes(pat)`. -/
def strContains (text pat : String) : Bool :=
  strContainsAux pat.data text.data

/-- JS `s.replace(/[+#]/g, "")` : drop all `+` and `#` characters
(used to ignore check/mate decorations on SAN moves). -/
def sanStrip (s : String) : String :=
  ⟨s.data.filter (fun c => !(c = '+' || c = '#'))⟩

/-- Digit run value, `parseInt` on a nonempty digit string. -/
def digitsToNat (ds : List Char) : Nat :=
  ds.foldl (fun acc c => acc * 10 + (c.toNat - '0'.toNat)) 0

/-- JS `s.startsWith(pat)`. -/
def strStartsWith (s pat : String) : Bool :=
  pat.data.isPrefixOf s.data

/-- JS `s.split(sep)` for a one-character separator: split at every
occurrence, keeping empty pieces (`"a  b"` → `["a","","b"]`). -/
def splitCharAux (sep : Char) : List Char → List Char → List (List Char)
  | [], acc => [acc.reverse]
  | c :: rest, acc =>
    if c = sep then acc.reverse :: splitCharAux sep rest []
    else splitCharAux sep rest (c :: acc)

def splitChar (sep : Char) (s : String) : List String :=
  (splitCharAux sep s.data []).map (fun cs => ⟨cs⟩)

/-- JS `s.trim()`. -/
def strTrim (s : String) : String :=
  ⟨((s.data.dropWhile Char.isWhitespace).reverse.dropWhile Char.isWhitespace).reverse⟩

/-- JS `String.prototype.toUpperCase` on the ASCII letters the source
feeds it (chess.js piece letters). -/
def charUpper (c : Char) : Char :=
  if 'a' ≤ c && c ≤ 'z' then Char.ofNat (c.toNat - 32) else c

def strUpper (s : String) : String :=
  ⟨s.data.map charUpper⟩

/-! ## Move Grader (`gradeFromLoss`; identical in both variants)

Source (src/App.jsx lines 132-140, and lines 59-67 of the unnamed
variant):

    function gradeFromLoss(cpLoss) {
      const loss = Math.abs(cpLoss) / 100;
      if (loss <= 0.1) return "A+";
      if (loss <= 0.2) return "A";
      if (loss <= 0.5) return "B";
      if (loss <= 0.9) return "C";
      if (loss <= 1.5) return "D";
      return "F";
    }

The JS division is IEEE double division, but for integer centipawn
inputs `|cp| / 100` compared against the literals `0.1 … 1.5` decides
exactly as exact rational arithmetic does (each literal is the nearest
double to the written decimal, and rounding both sides of the
comparison to nearest preserves the order of the underlying rationals
at these magnitudes), so the embedding uses `ℚ`. -/

def gradeFromLoss (cpLoss : Int) : String :=
  let loss : ℚ := (|cpLoss| : ℚ) / 100
  if loss ≤ 0.1 then "A+"
  else if loss ≤ 0.2 then "A"
  else if loss ≤ 0.5 then "B"
  else if loss ≤ 0.9 then "C"
  else if loss ≤ 1.5 then "D"
  else "F"

/-! ## Protocol parser

The listener registered by `analyze` (identical in both variants)
recognizes three regexes on each line:
`/score (cp|mate) (-?\d+)/`, `/ pv ([a-h][1-8][a-h][1-8][qrbn]?)/`,
`/ multipv (\d+)/`, plus the terminal test `line.startsWith("bestmove")`.
Each regex match is modelled as a left-to-right scan trying the
pattern at every start position, like the JS engine does. -/

/-- A verbose move record from the board-state collaborator (chess.js
`moves({verbose:true})`): the fields the core reads. -/
structure MoveV where
  fromSq : String
  toSq : String
  san : String
  promotion : Option String
  piece : String
  color : String
  flags : String
deriving DecidableEq

structure PVLine where
  uci : String
  san : String
  cp : Int
deriving DecidableEq

structure AnalysisResult where
  bestmove : Option String
  cp : Int
  lines : List PVLine
deriving DecidableEq

/-- Match `score (cp|mate) (-?\d+)` at the head of `cs`.  Returns
(isCp, hasMinus, digit magnitude).  The alternation tries `cp` before
`mate`; the literals are mutually exclusive so prefix tests suffice,
and `-?\d+` greedily captures the maximal digit run. -/
def tryScoreAt (cs : List Char) : Option (Bool × Bool × Nat) :=
  let readNum (isCp : Bool) (rest : List Char) : Option (Bool × Bool × Nat) :=
    let hasMinus := match rest with | '-' :: _ => true | _ => false
    let rest' := if hasMinus then rest.drop 1 else rest
    let ds := rest'.takeWhile Char.isDigit
    if ds.isEmpty then none else some (isCp, hasMinus, digitsToNat ds)
  if ("score cp ".data).isPrefixOf cs then readNum true (cs.drop 9)
  else if ("score mate ".data).isPrefixOf cs then readNum false (cs.drop 11)
  else none

def scanScoreAux : List Char → Option (Bool × Bool × Nat)
  | [] => none
  | c :: rest =>
    match tryScoreAt (c :: rest) with
    | some r => some r
    | none => scanScoreAux rest

/-- `line.match(/score (cp|mate) (-?\d+)/)`. -/
def scanScore (line : String) : Option (Bool × Bool × Nat) :=
  scanScoreAux line.data

def isFileChar (c : Char) : Bool := 'a' ≤ c && c ≤ 'h'
def isRankChar (c : Char) : Bool := '1' ≤ c && c ≤ '8'
def isPromoChar (c : Char) : Bool := c = 'q' || c = 'r' || c = 'b' || c = 'n'

/-- Match ` pv ([a-h][1-8][a-h][1-8][qrbn]?)` at the head: the leading
space is part of the pattern, and the optional promotion letter is
taken greedily when present. -/
def tryPvAt : List Char → Option String
  | ' ' :: 'p' :: 'v' :: ' ' :: a :: b :: c :: d :: rest =>
    if isFileChar a && isRankChar b && isFileChar c && isRankChar d then
      match rest with
      | p :: _ => if isPromoChar p then some ⟨[a, b, c, d, p]⟩ else some ⟨[a, b, c, d]⟩
      | [] => some ⟨[a, b, c, d]⟩
    else none
  | _ => none

def scanPvAux : List Char → Option String
  | [] => none
  | c :: rest =>
    match tryPvAt (c :: rest) with
    | some r => some r
    | none => scanPvAux rest

/-- `line.match(/ pv ([a-h][1-8][a-h][1-8][qrbn]?)/)`. -/
def scanPv (line : String) : Option String :=
  scanPvAux line.data

/-- Match ` multipv (\d+)` at the head. -/
def tryMultiAt (cs : List Char) : Option Nat :=
  if (" multipv ".data).isPrefixOf cs then
    let ds := (cs.drop 9).takeWhile Char.isDigit
    if ds.isEmpty then none else some (digitsToNat ds)
  else none

def scanMultiAux : List Char → Option Nat
  | [] => none
  | c :: rest =>
    match tryMultiAt (c :: rest) with
    | some r => some r
    | none => scanMultiAux rest

/-- `line.match(/ multipv (\d+)/)`. -/
def scanMulti (line : String) : Option Nat :=
  scanMultiAux line.data

/-- `lines[idx] = v` on the JS sparse array, modelled as an
association list keyed by the (possibly negative) index. -/
def setLine (lines : List (Int × PVLine)) (idx : Int) (v : PVLine) : List (Int × PVLine) :=
  if lines.any (fun p => p.1 = idx) then
    lines.map (fun p => if p.1 = idx then (idx, v) else p)
  else lines ++ [(idx, v)]

def insertByKey (p : Int × PVLine) : List (Int × PVLine) → List (Int × PVLine)
  | [] => [p]
  | q :: rest => if p.1 ≤ q.1 then p :: q :: rest else q :: insertByKey p rest

def sortByKey (l : List (Int × PVLine)) : List (Int × PVLine) :=
  l.foldr insertByKey []

/-- `lines.filter(Boolean)` on the sparse JS array: the stored values
(all truthy objects) at non-negative indices, in ascending index
order; a negative "index" is a plain object property the array filter
never visits. -/
def publishLines (lines : List (Int × PVLine)) : List PVLine :=
  (sortByKey (lines.filter (fun p => 0 ≤ p.1))).map (fun p => p.2)

/-- `line.split(" ")[1] || null`. -/
def bestmoveToken (line : String) : Option String :=
  match splitChar ' ' line with
  | _ :: s :: _ => if s = "" then none else some s
  | _ => none

/-! ## Analysis Channel: the `analyze` listener machinery

`analyze` (src/App.jsx lines 86-124; unnamed variant lines 130-171)
creates a promise, captures `bestmove`/`lastCp`/`lines`, subscribes a
listener via `on`, and sends `stop` / `position fen` / `go`.  The
listener resolves on a `bestmove` line after detaching itself; the
movetime variant additionally schedules a safety timeout at
`movetime + 600` which detaches and resolves with partial data.
`Pending` is the captured state of one such call; `legal` is the legal
move list of `new Chess(fen)` supplied by the external collaborator,
and `settles` counts effective promise settlements (a JS promise
ignores further `resolve` calls once settled). -/

structure Pending where
  legal : List MoveV
  bestmove : Option String
  lastCp : Int
  lines : List (Int × PVLine)
  active : Bool
  resolved : Option AnalysisResult
  settles : Nat
deriving DecidableEq

def initPending (legal : List MoveV) : Pending :=
  ⟨legal, none, 0, [], true, none, 0⟩

/-- Promise `resolve`: only the first call settles. -/
def resolveP (r : AnalysisResult) (st : Pending) : Pending :=
  if st.resolved.isSome then st
  else { st with resolved := some r, settles := st.settles + 1 }

/-- `off()`: remove this listener from the subscriber list. -/
def offP (st : Pending) : Pending :=
  { st with active := false }

/-- The `info ` branch of the listener. -/
def infoUpdate (st : Pending) (line : String) : Pending :=
  let st :=
    match scanScore line with
    | some (isCp, hasMinus, mag) =>
      { st with lastCp :=
          if isCp then (if hasMinus then -(mag : Int) else (mag : Int))
          else (if hasMinus then (-100000 : Int) else 100000) }
    | none => st
  match scanPv line, scanMulti line with
  | some uci, some n =>
    let idx : Int := (n : Int) - 1
    match st.legal.find? (fun m => m.fromSq ++ m.toSq ++ m.promotion.getD "" == uci) with
    | some mv => { st with lines := setLine st.lines idx ⟨uci, mv.san, st.lastCp⟩ }
    | none => st
  | _, _ => st

/-- The listener body (identical in both variants): ignore empty
lines, process `info ` lines, and on a `bestmove` line record the
token, detach, and resolve with the collected partial data. -/
def handleLine (st : Pending) (line : String) : Pending :=
  if line = "" then st
  else
    let st := if strStartsWith line "info " then infoUpdate st line else st
    if strStartsWith line "bestmove" then
      let bm := bestmoveToken line
      let st := offP { st with bestmove := bm }
      resolveP ⟨bm, st.lastCp, publishLines st.lines⟩ st
    else st

/-- One engine message delivered to this call: the listener only runs
while it is still subscribed. -/
def deliverP (st : Pending) (line : String) : Pending :=
  if st.active then handleLine st line else st

/-- The `src/App.jsx` variant processes exactly the engine's messages:
it schedules no timeout. -/
def runListener (legal : List MoveV) (msgs : List String) : Pending :=
  msgs.foldl deliverP (initPending legal)

/-- The safety timeout of the movetime variant: `off(); resolve(...)`
with whatever was captured. -/
def timeoutFire (st : Pending) : Pending :=
  let st := offP st
  resolveP ⟨st.bestmove, st.lastCp, publishLines st.lines⟩ st

/-- Movetime variant: the messages, then the timeout at
`movetime + 600` (never cancelled, so it always fires). -/
def runAnalyzeB (legal : List MoveV) (msgs : List String) : Pending :=
  timeoutFire (runListener legal msgs)

/-- The synchronous start of `analyze`: with no engine object the
promise resolves immediately with the neutral result and no listener
is ever registered; otherwise a listener is subscribed and the three
commands are sent. -/
inductive AnalyzeStart
  | immediate (r : AnalysisResult)
  | pending (p : Pending) (cmds : List String)
deriving DecidableEq

def analyzeStartA (engPresent : Bool) (fen : String) (d : Nat) (legal : List MoveV) : AnalyzeStart :=
  if engPresent then
    .pending (initPending legal) ["stop", "position fen " ++ fen, "go depth " ++ toString d]
  else .immediate ⟨none, 0, []⟩

def analyzeStartB (engPresent : Bool) (fen : String) (movetime : Nat) (legal : List MoveV) : AnalyzeStart :=
  if engPresent then
    .pending (initPending legal) ["stop", "position fen " ++ fen, "go movetime " ++ toString movetime]
  else .immediate ⟨none, 0, []⟩

def listenersOf : AnalyzeStart → Nat
  | .immediate _ => 0
  | .pending p _ => if p.active then 1 else 0

/-! ### The subscriber list

`on(fn)` pushes onto `subs.current` and returns an `off` closure;
`analyze` never detaches a previous call's listener — it only pushes
its own and sends `stop`.  Message dispatch iterates the subscriber
array snapshot taken at dispatch start, so a listener detached during
the pass still received the current line after listeners before it. -/

structure ChannelState where
  pendings : List Pending
  sent : List String
deriving DecidableEq

/-- The synchronous part of one `analyze` call on a live engine:
subscribe a fresh listener, then send `stop`, `position fen`, `go`. -/
def startAnalyzeC (ch : ChannelState) (legal : List MoveV) (fen goCmd : String) : ChannelState :=
  ⟨ch.pendings ++ [initPending legal], ch.sent ++ ["stop", "position fen " ++ fen, goCmd]⟩

/-- One engine line dispatched to every currently subscribed listener. -/
def deliverC (ch : ChannelState) (line : String) : ChannelState :=
  ⟨ch.pendings.map (fun p => deliverP p line), ch.sent⟩

def activeListeners (ch : ChannelState) : Nat :=
  (ch.pendings.filter (fun p => p.active)).length

/-! ## Engine Session (`useStockfish` handshake)

`onMsg` of `src/App.jsx` (lines 60-72): on a message containing
`uciok` it posts the three option commands and becomes ready at once —
it never probes readiness.  `onMsg` of the unnamed variant (lines
101-114): on `uciok` it posts the options and then `isready`, and
becomes ready only on a message containing `readyok`. -/

structure SessionState where
  ready : Bool
  sent : List String
deriving DecidableEq

def optionCmds (elo multipv : Nat) : List String :=
  ["setoption name UCI_LimitStrength value true",
   "setoption name UCI_Elo value " ++ toString elo,
   "setoption name MultiPV value " ++ toString multipv]

def onMsgA (elo multipv : Nat) (st : SessionState) (text : String) : SessionState :=
  if strContains text "uciok" then
    { ready := true, sent := st.sent ++ optionCmds elo multipv }
  else st

def onMsgB (elo multipv : Nat) (st : SessionState) (text : String) : SessionState :=
  let st1 :=
    if strContains text "uciok" then
      { st with sent := st.sent ++ optionCmds elo multipv ++ ["isready"] }
    else st
  if strContains text "readyok" then { st1 with ready := true } else st1

/-- Session right after construction: `uci` has been posted, not ready. -/
def sessionInit : SessionState := ⟨false, ["uci"]⟩

def runSessionA (elo multipv : Nat) (msgs : List String) : SessionState :=
  msgs.foldl (onMsgA elo multipv) sessionInit

def runSessionB (elo multipv : Nat) (msgs : List String) : SessionState :=
  msgs.foldl (onMsgB elo multipv) sessionInit

/-! ## Opening Matcher (`detectOpening` / `tryMatch`; identical in both
variants, src/App.jsx lines 18-42, unnamed variant lines 33-57)

`tryMatch` replays a book entry's pgn tokens on a fresh board via the
external collaborator, collecting the notated moves, then compares the
collected notation against the game history up to the shorter length
(ignoring `+`/`#`), and on success reports `matchedLen` as the *full*
length of the replayed entry.  The collaborator is a parameter
`oracle` mapping the list of moves applied so far (from-square,
to-square, promotion — exactly the object passed to `tmp.move`) to the
verbose legal-move list of the resulting position. -/

/-- `pgn.replace(/[0-9]+\.|[?!+#]/g, "")`: delete every maximal digit
run directly followed by a dot (together with the dot) and every
`? ! + #` character.  A digit run not followed by a dot is kept — no
start position inside the run can begin a regex match either, since
`[0-9]+\.` needs the dot right after digits. -/
def stripPgnGo : List Char → List Char → List Char
  | pend, [] => pend.reverse
  | pend, c :: rest =>
    if c.isDigit then stripPgnGo (c :: pend) rest
    else if c = '.' then
      if pend.isEmpty then '.' :: stripPgnGo [] rest
      else stripPgnGo [] rest
    else if c = '?' || c = '!' || c = '+' || c = '#' then
      pend.reverse ++ stripPgnGo [] rest
    else pend.reverse ++ (c :: stripPgnGo [] rest)

/-- Single left-to-right pass with the pending digit run as
accumulator: a maximal digit run directly followed by `.` is deleted
with the dot, any other digit run is kept, a lone `.` is kept, and the
characters `? ! + #` are always deleted — exactly the global
replacement, since `[0-9]+\.` can only match a maximal digit run whose
very next character is the dot. -/
def stripPgnAux (cs : List Char) : List Char :=
  stripPgnGo [] cs

/-- Split on whitespace runs.  The source trims, splits on `/\s+/` and
filters out empty strings; splitting at every whitespace character and
dropping empty pieces yields the same token list. -/
def splitWsAux : List Char → List Char → List (List Char)
  | [], acc => [acc.reverse]
  | c :: rest, acc =>
    if c.isWhitespace then acc.reverse :: splitWsAux rest []
    else splitWsAux rest (c :: acc)

/-- `pgn.replace(/[0-9]+\.|[?!+#]/g, "").trim().split(/\s+/).filter(Boolean)`. -/
def pgnTokens (pgn : String) : List String :=
  ((splitWsAux (strTrim ⟨stripPgnAux pgn.data⟩).data []).filter
      (fun cs => !cs.isEmpty)).map (fun cs => ⟨cs⟩)

structure Opening where
  eco : String
  name : String
  pgn : String
deriving DecidableEq

structure OpeningMatch where
  eco : String
  name : String
  matchedLen : Nat
deriving DecidableEq

/-- The static opening book (src/openings.js; the unnamed variant
carries an identical inline copy). -/
def OPENINGS : List Opening :=
  [⟨"C20", "King's Pawn Game", "e4"⟩,
   ⟨"C40", "King's Knight Opening", "e4 e5 Nf3"⟩,
   ⟨"C50", "Italian Game", "e4 e5 Nf3 Nc6 Bc4"⟩,
   ⟨"C60", "Ruy Lopez", "e4 e5 Nf3 Nc6 Bb5"⟩,
   ⟨"B30", "Sicilian Defense", "e4 c5"⟩,
   ⟨"C00", "French Defense", "e4 e6"⟩,
   ⟨"B01", "Scandinavian Defense", "e4 d5"⟩,
   ⟨"D00", "Queen's Pawn Game", "d4 d5"⟩,
   ⟨"D06", "Slav Defense", "d4 d5 c4 c6"⟩,
   ⟨"D20", "Queen's Gambit Accepted", "d4 d5 c4 dxc4"⟩,
   ⟨"D30", "Queen's Gambit Declined", "d4 d5 c4 e6"⟩,
   ⟨"E60", "King's Indian Defense", "d4 Nf6 c4 g6"⟩]

/-- A move applied to the scratch board: the `{from, to, promotion}`
object passed to `tmp.move`. -/
abbrev AppliedMove := String × String × String

/-- The `legal.find(...)` of `tryMatch`: first legal move whose
coordinate pair equals the token, or whose SAN equals the token after
stripping check/mate decorations from both. -/
def findBookMove (legal : List MoveV) (tok : String) : Option MoveV :=
  legal.find? (fun mv => (mv.fromSq ++ mv.toSq == tok) || (sanStrip mv.san == sanStrip tok))

/-- The replay loop of `tryMatch`: resolve each token against the
current position's legal moves, apply it, collect its SAN; reject the
entry entirely if any token fails to resolve. -/
def replayTokens (oracle : List AppliedMove → List MoveV)
    (applied : List AppliedMove) (acc : List String) :
    List String → Option (List String)
  | [] => some acc.reverse
  | tok :: toks =>
    match findBookMove (oracle applied) tok with
    | none => none
    | some m =>
      replayTokens oracle (applied ++ [(m.fromSq, m.toSq, m.promotion.getD "q")])
        (m.san :: acc) toks

/-- The comparison loop of `tryMatch`: mismatch anywhere in the first
`min targetSAN.length movesSAN.length` positions (ignoring `+`/`#`). -/
def prefixMismatch (targetSAN movesSAN : List String) : Bool :=
  (List.zip targetSAN movesSAN).any (fun p => !(sanStrip p.1 == sanStrip p.2))

def tryMatch (oracle : List AppliedMove → List MoveV) (movesSAN : List String)
    (opening : Opening) : Option OpeningMatch :=
  match replayTokens oracle [] [] (pgnTokens opening.pgn) with
  | none => none
  | some targetSAN =>
    if prefixMismatch targetSAN movesSAN then none
    else some ⟨opening.eco, opening.name, targetSAN.length⟩

/-- The selection fold of `detectOpening`:
`if (got && (!best || got.matchedLen > best.matchedLen)) best = got`. -/
def detectOpeningList (oracle : List AppliedMove → List MoveV)
    (movesSAN : List String) (ops : List Opening) : Option OpeningMatch :=
  ops.foldl (fun best op =>
    match tryMatch oracle movesSAN op with
    | none => best
    | some got =>
      match best with
      | none => some got
      | some b => if got.matchedLen > b.matchedLen then some got else some b) none

def detectOpening (oracle : List AppliedMove → List MoveV)
    (movesSAN : List String) : Option OpeningMatch :=
  detectOpeningList oracle movesSAN OPENINGS

/-! ### Concrete collaborator instantiation for the book positions

`bookOracle` states the actual chess legal-move lists (from, to, SAN)
for every position reached while replaying the twelve book entries —
these are standard chess facts, i.e. exactly what chess.js returns.
List order is irrelevant to `tryMatch`: a book token matches at most
one legal move, because undecorated SAN is unique within a position
and a 2-3 character SAN token can never equal a 4-5 character
from-to coordinate pair. -/

/-- A quiet (non-capture) verbose move. -/
def mvq (f t s p c : String) : MoveV := ⟨f, t, s, none, p, c, "n"⟩

/-- A double pawn push. -/
def mvb (f t s c : String) : MoveV := ⟨f, t, s, none, "p", c, "b"⟩

/-- A capture. -/
def mvc (f t s p c : String) : MoveV := ⟨f, t, s, none, p, c, "c"⟩

/-- Legal moves of the initial position. -/
def legalInit : List MoveV :=
  [mvq "a2" "a3" "a3" "p" "w", mvb "a2" "a4" "a4" "w",
   mvq "b2" "b3" "b3" "p" "w", mvb "b2" "b4" "b4" "w",
   mvq "c2" "c3" "c3" "p" "w", mvb "c2" "c4" "c4" "w",
   mvq "d2" "d3" "d3" "p" "w", mvb "d2" "d4" "d4" "w",
   mvq "e2" "e3" "e3" "p" "w", mvb "e2" "e4" "e4" "w",
   mvq "f2" "f3" "f3" "p" "w", mvb "f2" "f4" "f4" "w",
   mvq "g2" "g3" "g3" "p" "w", mvb "g2" "g4" "g4" "w",
   mvq "h2" "h3" "h3" "p" "w", mvb "h2" "h4" "h4" "w",
   mvq "b1" "a3" "Na3" "n" "w", mvq "b1" "c3" "Nc3" "n" "w",
   mvq "g1" "f3" "Nf3" "n" "w", mvq "g1" "h3" "Nh3" "n" "w"]

/-- Legal moves after 1.e4. -/
def legalAfterE4 : List MoveV :=
  [mvq "a7" "a6" "a6" "p" "b", mvb "a7" "a5" "a5" "b",
   mvq "b7" "b6" "b6" "p" "b", mvb "b7" "b5" "b5" "b",
   mvq "c7" "c6" "c6" "p" "b", mvb "c7" "c5" "c5" "b",
   mvq "d7" "d6" "d6" "p" "b", mvb "d7" "d5" "d5" "b",
   mvq "e7" "e6" "e6" "p" "b", mvb "e7" "e5" "e5" "b",
   mvq "f7" "f6" "f6" "p" "b", mvb "f7" "f5" "f5" "b",
   mvq "g7" "g6" "g6" "p" "b", mvb "g7" "g5" "g5" "b",
   mvq "h7" "h6" "h6" "p" "b", mvb "h7" "h5" "h5" "b",
   mvq "b8" "a6" "Na6" "n" "b", mvq "b8" "c6" "Nc6" "n" "b",
   mvq "g8" "f6" "Nf6" "n" "b", mvq "g8" "h6" "Nh6" "n" "b"]

/-- Legal moves after 1.e4 e5. -/
def legalAfterE4E5 : List MoveV :=
  [mvq "a2" "a3" "a3" "p" "w", mvb "a2" "a4" "a4" "w",
   mvq "b2" "b3" "b3" "p" "w", mvb "b2" "b4" "b4" "w",
   mvq "c2" "c3" "c3" "p" "w", mvb "c2" "c4" "c4" "w",
   mvq "d2" "d3" "d3" "p" "w", mvb "d2" "d4" "d4" "w",
   mvq "f2" "f3" "f3" "p" "w", mvb "f2" "f4" "f4" "w",
   mvq "g2" "g3" "g3" "p" "w", mvb "g2" "g4" "g4" "w",
   mvq "h2" "h3" "h3" "p" "w", mvb "h2" "h4" "h4" "w",
   mvq "b1" "a3" "Na3" "n" "w", mvq "b1" "c3" "Nc3" "n" "w",
   mvq "g1" "e2" "Ne2" "n" "w", mvq "g1" "f3" "Nf3" "n" "w",
   mvq "g1" "h3" "Nh3" "n" "w",
   mvq "f1" "e2" "Be2" "b" "w", mvq "f1" "d3" "Bd3" "b" "w",
   mvq "f1" "c4" "Bc4" "b" "w", mvq "f1" "b5" "Bb5" "b" "w",
   mvq "f1" "a6" "Ba6" "b" "w",
   mvq "d1" "e2" "Qe2" "q" "w", mvq "d1" "f3" "Qf3" "q" "w",
   mvq "d1" "g4" "Qg4" "q" "w", mvq "d1" "h5" "Qh5" "q" "w",
   mvq "e1" "e2" "Ke2" "k" "w"]

/-- Legal moves after 1.e4 e5 2.Nf3. -/
def legalAfterE4E5Nf3 : List MoveV :=
  [mvq "a7" "a6" "a6" "p" "b", mvb "a7" "a5" "a5" "b",
   mvq "b7" "b6" "b6" "p" "b", mvb "b7" "b5" "b5" "b",
   mvq "c7" "c6" "c6" "p" "b", mvb "c7" "c5" "c5" "b",
   mvq "d7" "d6" "d6" "p" "b", mvb "d7" "d5" "d5" "b",
   mvq "f7" "f6" "f6" "p" "b", mvb "f7" "f5" "f5" "b",
   mvq "g7" "g6" "g6" "p" "b", mvb "g7" "g5" "g5" "b",
   mvq "h7" "h6" "h6" "p" "b", mvb "h7" "h5" "h5" "b",
   mvq "b8" "a6" "Na6" "n" "b", mvq "b8" "c6" "Nc6" "n" "b",
   mvq "g8" "e7" "Ne7" "n" "b", mvq "g8" "f6" "Nf6" "n" "b",
   mvq "g8" "h6" "Nh6" "n" "b",
   mvq "f8" "e7" "Be7" "b" "b", mvq "f8" "d6" "Bd6" "b" "b",
   mvq "f8" "c5" "Bc5" "b" "b", mvq "f8" "b4" "Bb4" "b" "b",
   mvq "f8" "a3" "Ba3" "b" "b",
   mvq "d8" "e7" "Qe7" "q" "b", mvq "d8" "f6" "Qf6" "q" "b",
   mvq "d8" "g5" "Qg5" "q" "b", mvq "d8" "h4" "Qh4" "q" "b",
   mvq "e8" "e7" "Ke7" "k" "b"]

/-- Legal moves after 1.e4 e5 2.Nf3 Nc6. -/
def legalAfterE4E5Nf3Nc6 : List MoveV :=
  [mvq "a2" "a3" "a3" "p" "w", mvb "a2" "a4" "a4" "w",
   mvq "b2" "b3" "b3" "p" "w", mvb "b2" "b4" "b4" "w",
   mvq "c2" "c3" "c3" "p" "w", mvb "c2" "c4" "c4" "w",
   mvq "d2" "d3" "d3" "p" "w", mvb "d2" "d4" "d4" "w",
   mvq "g2" "g3" "g3" "p" "w", mvb "g2" "g4" "g4" "w",
   mvq "h2" "h3" "h3" "p" "w", mvb "h2" "h4" "h4" "w",
   mvq "b1" "a3" "Na3" "n" "w", mvq "b1" "c3" "Nc3" "n" "w",
   mvq "f3" "d4" "Nd4" "n" "w", mvc "f3" "e5" "Nxe5" "n" "w",
   mvq "f3" "g5" "Ng5" "n" "w", mvq "f3" "h4" "Nh4" "n" "w",
   mvq "f3" "g1" "Ng1" "n" "w",
   mvq "f1" "e2" "Be2" "b" "w", mvq "f1" "d3" "Bd3" "b" "w",
   mvq "f1" "c4" "Bc4" "b" "w", mvq "f1" "b5" "Bb5" "b" "w",
   mvq "f1" "a6" "Ba6" "b" "w",
   mvq "d1" "e2" "Qe2" "q" "w", mvq "e1" "e2" "Ke2" "k" "w",
   mvq "h1" "g1" "Rg1" "r" "w"]

/-- Legal moves after 1.d4. -/
def legalAfterD4 : List MoveV :=
  [mvq "a7" "a6" "a6" "p" "b", mvb "a7" "a5" "a5" "b",
   mvq "b7" "b6" "b6" "p" "b", mvb "b7" "b5" "b5" "b",
   mvq "c7" "c6" "c6" "p" "b", mvb "c7" "c5" "c5" "b",
   mvq "d7" "d6" "d6" "p" "b", mvb "d7" "d5" "d5" "b",
   mvq "e7" "e6" "e6" "p" "b", mvb "e7" "e5" "e5" "b",
   mvq "f7" "f6" "f6" "p" "b", mvb "f7" "f5" "f5" "b",
   mvq "g7" "g6" "g6" "p" "b", mvb "g7" "g5" "g5" "b",
   mvq "h7" "h6" "h6" "p" "b", mvb "h7" "h5" "h5" "b",
   mvq "b8" "a6" "Na6" "n" "b", mvq "b8" "c6" "Nc6" "n" "b",
   mvq "g8" "f6" "Nf6" "n" "b", mvq "g8" "h6" "Nh6" "n" "b"]

/-- Legal moves after 1.d4 d5. -/
def legalAfterD4D5 : List MoveV :=
  [mvq "a2" "a3" "a3" "p" "w", mvb "a2" "a4" "a4" "w",
   mvq "b2" "b3" "b3" "p" "w", mvb "b2" "b4" "b4" "w",
   mvq "c2" "c3" "c3" "p" "w", mvb "c2" "c4" "c4" "w",
   mvq "e2" "e3" "e3" "p" "w", mvb "e2" "e4" "e4" "w",
   mvq "f2" "f3" "f3" "p" "w", mvb "f2" "f4" "f4" "w",
   mvq "g2" "g3" "g3" "p" "w", mvb "g2" "g4" "g4" "w",
   mvq "h2" "h3" "h3" "p" "w", mvb "h2" "h4" "h4" "w",
   mvq "b1" "a3" "Na3" "n" "w", mvq "b1" "c3" "Nc3" "n" "w",
   mvq "b1" "d2" "Nd2" "n" "w",
   mvq "g1" "f3" "Nf3" "n" "w", mvq "g1" "h3" "Nh3" "n" "w",
   mvq "c1" "d2" "Bd2" "b" "w", mvq "c1" "e3" "Be3" "b" "w",
   mvq "c1" "f4" "Bf4" "b" "w", mvq "c1" "g5" "Bg5" "b" "w",
   mvq "c1" "h6" "Bh6" "b" "w",
   mvq "d1" "d2" "Qd2" "q" "w", mvq "d1" "d3" "Qd3" "q" "w",
   mvq "e1" "d2" "Kd2" "k" "w"]

/-- Legal moves after 1.d4 d5 2.c4. -/
def legalAfterD4D5C4 : List MoveV :=
  [mvq "a7" "a6" "a6" "p" "b", mvb "a7" "a5" "a5" "b",
   mvq "b7" "b6" "b6" "p" "b", mvb "b7" "b5" "b5" "b",
   mvq "c7" "c6" "c6" "p" "b", mvb "c7" "c5" "c5" "b",
   mvq "e7" "e6" "e6" "p" "b", mvb "e7" "e5" "e5" "b",
   mvq "f7" "f6" "f6" "p" "b", mvb "f7" "f5" "f5" "b",
   mvq "g7" "g6" "g6" "p" "b", mvb "g7" "g5" "g5" "b",
   mvq "h7" "h6" "h6" "p" "b", mvb "h7" "h5" "h5" "b",
   mvc "d5" "c4" "dxc4" "p" "b",
   mvq "b8" "a6" "Na6" "n" "b", mvq "b8" "c6" "Nc6" "n" "b",
   mvq "b8" "d7" "Nd7" "n" "b",
   mvq "g8" "f6" "Nf6" "n" "b", mvq "g8" "h6" "Nh6" "n" "b",
   mvq "c8" "d7" "Bd7" "b" "b", mvq "c8" "e6" "Be6" "b" "b",
   mvq "c8" "f5" "Bf5" "b" "b", mvq "c8" "g4" "Bg4" "b" "b",
   mvq "c8" "h3" "Bh3" "b" "b",
   mvq "d8" "d7" "Qd7" "q" "b", mvq "d8" "d6" "Qd6" "q" "b",
   mvq "e8" "d7" "Kd7" "k" "b"]

/-- Legal moves after 1.d4 Nf6. -/
def legalAfterD4Nf6 : List MoveV :=
  [mvq "a2" "a3" "a3" "p" "w", mvb "a2" "a4" "a4" "w",
   mvq "b2" "b3" "b3" "p" "w", mvb "b2" "b4" "b4" "w",
   mvq "c2" "c3" "c3" "p" "w", mvb "c2" "c4" "c4" "w",
   mvq "e2" "e3" "e3" "p" "w", mvb "e2" "e4" "e4" "w",
   mvq "f2" "f3" "f3" "p" "w", mvb "f2" "f4" "f4" "w",
   mvq "g2" "g3" "g3" "p" "w", mvb "g2" "g4" "g4" "w",
   mvq "h2" "h3" "h3" "p" "w", mvb "h2" "h4" "h4" "w",
   mvq "b1" "a3" "Na3" "n" "w", mvq "b1" "c3" "Nc3" "n" "w",
   mvq "b1" "d2" "Nd2" "n" "w",
   mvq "g1" "f3" "Nf3" "n" "w", mvq "g1" "h3" "Nh3" "n" "w",
   mvq "c1" "d2" "Bd2" "b" "w", mvq "c1" "e3" "Be3" "b" "w",
   mvq "c1" "f4" "Bf4" "b" "w", mvq "c1" "g5" "Bg5" "b" "w",
   mvq "c1" "h6" "Bh6" "b" "w",
   mvq "d1" "d2" "Qd2" "q" "w", mvq "d1" "d3" "Qd3" "q" "w",
   mvq "e1" "d2" "Kd2" "k" "w"]

/-- Legal moves after 1.d4 Nf6 2.c4. -/
def legalAfterD4Nf6C4 : List MoveV :=
  [mvq "a7" "a6" "a6" "p" "b", mvb "a7" "a5" "a5" "b",
   mvq "b7" "b6" "b6" "p" "b", mvb "b7" "b5" "b5" "b",
   mvq "c7" "c6" "c6" "p" "b", mvb "c7" "c5" "c5" "b",
   mvq "d7" "d6" "d6" "p" "b", mvb "d7" "d5" "d5" "b",
   mvq "e7" "e6" "e6" "p" "b", mvb "e7" "e5" "e5" "b",
   mvq "g7" "g6" "g6" "p" "b", mvb "g7" "g5" "g5" "b",
   mvq "h7" "h6" "h6" "p" "b", mvb "h7" "h5" "h5" "b",
   mvq "f6" "e4" "Ne4" "n" "b", mvq "f6" "d5" "Nd5" "n" "b",
   mvq "f6" "g4" "Ng4" "n" "b", mvq "f6" "h5" "Nh5" "n" "b",
   mvq "f6" "g8" "Ng8" "n" "b",
   mvq "b8" "a6" "Na6" "n" "b", mvq "b8" "c6" "Nc6" "n" "b",
   mvq "h8" "g8" "Rg8" "r" "b"]

/-- The external board-state collaborator, instantiated on the
positions the book replay visits (all twelve entries replay through
these nine positions). -/
def bookOracle (applied : List AppliedMove) : List MoveV :=
  if applied = [] then legalInit
  else if applied = [("e2", "e4", "q")] then legalAfterE4
  else if applied = [("e2", "e4", "q"), ("e7", "e5", "q")] then legalAfterE4E5
  else if applied = [("e2", "e4", "q"), ("e7", "e5", "q"), ("g1", "f3", "q")] then
    legalAfterE4E5Nf3
  else if applied = [("e2", "e4", "q"), ("e7", "e5", "q"), ("g1", "f3", "q"),
      ("b8", "c6", "q")] then legalAfterE4E5Nf3Nc6
  else if applied = [("d2", "d4", "q")] then legalAfterD4
  else if applied = [("d2", "d4", "q"), ("d7", "d5", "q")] then legalAfterD4D5
  else if applied = [("d2", "d4", "q"), ("d7", "d5", "q"), ("c2", "c4", "q")] then
    legalAfterD4D5C4
  else if applied = [("d2", "d4", "q"), ("g8", "f6", "q")] then legalAfterD4Nf6
  else if applied = [("d2", "d4", "q"), ("g8", "f6", "q"), ("c2", "c4", "q")] then
    legalAfterD4Nf6C4
  else []

/-! ## Rationale generator (`explainHeuristic`; identical in both
variants, src/App.jsx lines 142-157, unnamed variant lines 68-83)

A chess.js position is consumed only through `turn()` and
`moves({verbose:true})`, so a position is modelled by those two
observations.  The `before` parameter is accepted and ignored, as in
the source. -/

structure Position where
  turn : String
  movesVerbose : List MoveV
deriving DecidableEq

def underDefendedPhrase : String := "The moved piece is under-defended."

/-- JS `parts.join(" ")`. -/
def joinSpace : List String → String
  | [] => ""
  | [x] => x
  | x :: rest => x ++ " " ++ joinSpace rest

/-- The `parts` array as built by the source's cascade of conditional
pushes (each step `if cond then parts ++ [s] else parts`, written here
as the concatenation of the conditional singletons in rule order),
followed by the generic fallback when no rule fired. -/
def explainParts (move : MoveV) (before after : Position) : List String :=
  let us := if after.turn == "w" then "b" else "w"
  let attackers := after.movesVerbose.filter (fun m => m.toSq == move.toSq && m.color == us)
  let defenders := after.movesVerbose.filter (fun m => m.toSq == move.toSq && !(m.color == us))
  let parts :=
    (if strContains move.flags "c" then ["You captured material."] else []) ++
    (if strContains move.san "+" then ["You gave check."] else []) ++
    (if strContains move.san "#" then ["Checkmate, nice."] else []) ++
    (if ["d4", "d5", "e4", "e5"].contains move.toSq then
      ["You fought for the center."] else []) ++
    (if ["N", "B"].contains (strUpper move.piece) then
      ["You developed a minor piece."] else []) ++
    (if move.san == "O-O" || move.san == "O-O-O" then
      ["You castled your king to safety."] else []) ++
    (if attackers.length > defenders.length then [underDefendedPhrase] else [])
  if parts.isEmpty then ["Idea makes sense, but there may be a more precise square."] else parts

def explainHeuristic (move : MoveV) (before after : Position) : String :=
  joinSpace (explainParts move before after)

/-! ## Coaching pipeline: `onPieceDrop` and `engineMove`

The board-state collaborator (the mutable chess.js `game` object) is a
parameter: an abstract state type `G` together with the operations the
handlers invoke on it.  `move` returns `none` for a rejected (illegal)
move and leaves the game unchanged, exactly the `game.move(...) ->
null` convention the source relies on.  Engine analysis results are a
parameter `ana` from the analyzed FEN to the awaited result, and every
externally visible action is recorded as an `Effect` in order. -/

structure MoveObj where
  fromSq : String
  toSq : String
  promotion : String
deriving DecidableEq

/-- The move object both variants build from a piece drop:
`{ from: sourceSquare, to: targetSquare, promotion: "q" }`
(src/App.jsx line 213; unnamed variant line 256). -/
def userMoveObj (sourceSquare targetSquare : String) : MoveObj :=
  ⟨sourceSquare, targetSquare, "q"⟩

structure CoachRec where
  ply : Nat
  move : String
  grade : String
  loss : Int
  note : String
deriving DecidableEq

inductive Effect
  | analyzeReq (fen : String)
  | setGame (fen : String)
  | setFen (fen : String)
  | appendCoach (rec : CoachRec)
deriving DecidableEq

structure BoardApi (G : Type) where
  move : G → MoveObj → Option (MoveV × G)
  moveVerbose : G → MoveV → G
  undo : G → G
  fen : G → String
  isGameOver : G → Bool
  movesVerbose : G → List MoveV
  historyLen : G → Nat
  turn : G → String
  posOfFen : String → Position
  newPos : Position

/-- The position observations of the live `game` object. -/
def BoardApi.posOf {G : Type} (api : BoardApi G) (g : G) : Position :=
  ⟨api.turn g, api.movesVerbose g⟩

/-- `engineMove` (src/App.jsx lines 200-210; the unnamed variant's
copy at lines 220-229 is the same logic): have the engine pick and
play its reply. -/
def engineMove {G : Type} (api : BoardApi G) (ready : Bool)
    (ana : String → AnalysisResult) (g : G) : G × List Effect :=
  if !ready || api.isGameOver g then (g, [])
  else
    let res := ana (api.fen g)
    let effs := [Effect.analyzeReq (api.fen g)]
    let mvFound :=
      match res.bestmove with
      | none => none
      | some bm =>
        (api.movesVerbose g).find? (fun m => m.fromSq ++ m.toSq ++ m.promotion.getD "" == bm)
    match mvFound with
    | none => (g, effs)
    | some m =>
      let g' := api.moveVerbose g m
      (g', effs ++ [Effect.setGame (api.fen g'), Effect.setFen (api.fen g')])

/-- `onPieceDrop` of src/App.jsx (lines 212-236): try the move first,
undo it for the pre-move analysis, re-apply it, analyze again, grade
and append.  Returns the accepted flag, the final game state, the
ordered effects, and the coach records appended. -/
def onPieceDropA {G : Type} (api : BoardApi G) (ready : Bool)
    (ana : String → AnalysisResult) (g : G) (sourceSquare targetSquare : String) :
    Bool × G × List Effect × List CoachRec :=
  let moveObj := userMoveObj sourceSquare targetSquare
  match api.move g moveObj with
  | none => (false, g, [], [])
  | some (move, g1) =>
    let beforeFEN := api.fen g1
    let g2 := api.undo g1
    let preEffs := if ready then [Effect.analyzeReq (api.fen g2)] else []
    let pre : AnalysisResult := if ready then ana (api.fen g2) else ⟨none, 0, []⟩
    let cpBefore := pre.cp
    let g3 := match api.move g2 moveObj with | some (_, g') => g' | none => g2
    let effs1 := preEffs ++ [Effect.setGame (api.fen g3), Effect.setFen (api.fen g3)]
    let postEffs := if ready then [Effect.analyzeReq (api.fen g3)] else []
    let post : AnalysisResult := if ready then ana (api.fen g3) else ⟨none, cpBefore, []⟩
    let cpAfter := post.cp
    let loss := (cpBefore - cpAfter) * (if api.turn g3 == "w" then 1 else -1)
    let grade := if ready then gradeFromLoss loss else "A"
    let note := explainHeuristic move (api.posOfFen beforeFEN) (api.posOf g3)
    let rec0 : CoachRec := ⟨api.historyLen g3, move.san, grade, loss, note⟩
    let reply := engineMove api ready ana g3
    (true, reply.1, effs1 ++ postEffs ++ [Effect.appendCoach rec0] ++ reply.2, [rec0])

/-- `onPieceDrop` of the unnamed variant (lines 243-279): the pre-move
analysis and best-move lookup run *before* the move is attempted, then
the move is tried from there. -/
def onPieceDropB {G : Type} (api : BoardApi G) (ready : Bool)
    (ana : String → AnalysisResult) (g : G) (sourceSquare targetSquare : String) :
    Bool × G × List Effect × List CoachRec :=
  let preEffs := if ready then [Effect.analyzeReq (api.fen g)] else []
  let pre : AnalysisResult := if ready then ana (api.fen g) else ⟨none, 0, []⟩
  let cpBefore := pre.cp
  let bestUci := pre.bestmove
  let bestSAN : Option String :=
    match bestUci with
    | none => none
    | some bu =>
      match (api.posOfFen (api.fen g)).movesVerbose.find?
          (fun m => m.fromSq ++ m.toSq ++ m.promotion.getD "" == bu) with
      | none => none
      | some m => if m.san = "" then none else some m.san
  let moveObj := userMoveObj sourceSquare targetSquare
  match api.move g moveObj with
  | none => (false, g, preEffs, [])
  | some (move, g1) =>
    let effs1 := preEffs ++ [Effect.setGame (api.fen g1), Effect.setFen (api.fen g1)]
    let postEffs := if ready then [Effect.analyzeReq (api.fen g1)] else []
    let post : AnalysisResult := if ready then ana (api.fen g1) else ⟨none, cpBefore, []⟩
    let cpAfter := post.cp
    let cpAfterFromPlayer := -cpAfter
    let cpLoss := cpBefore - cpAfterFromPlayer
    let grade := gradeFromLoss cpLoss
    let heur := explainHeuristic move api.newPos (api.posOfFen (api.fen g1))
    let better :=
      match bestUci, bestSAN with
      | some bu, some bs =>
        if bu == move.fromSq ++ move.toSq ++ move.promotion.getD "" then ""
        else "Stronger was " ++ bs ++ ". "
      | _, _ => ""
    let note := strTrim (better ++ heur)
    let rec0 : CoachRec := ⟨api.historyLen g1, move.san, grade, cpLoss, note⟩
    let reply := engineMove api ready ana g1
    (true, reply.1, effs1 ++ postEffs ++ [Effect.appendCoach rec0] ++ reply.2, [rec0])

/-! ### Concrete position for the under-defended rule: 1.e4 d5

The applied move is Black's double pawn push d7-d5, the position after
it has White to move; White's only legal move landing on d5 is the
capture e4xd5, and no Black move lands on d5 (chess.js generates
moves for the side to move only, all coloured `"w"` here). -/

def moveD5 : MoveV := mvb "d7" "d5" "d5" "b"

def posAfterE4 : Position := ⟨"b", legalAfterE4⟩

/-- White's legal moves after 1.e4 d5. -/
def legalAfterE4D5 : List MoveV :=
  [mvq "a2" "a3" "a3" "p" "w", mvb "a2" "a4" "a4" "w",
   mvq "b2" "b3" "b3" "p" "w", mvb "b2" "b4" "b4" "w",
   mvq "c2" "c3" "c3" "p" "w", mvb "c2" "c4" "c4" "w",
   mvq "d2" "d3" "d3" "p" "w", mvb "d2" "d4" "d4" "w",
   mvq "e4" "e5" "e5" "p" "w", mvc "e4" "d5" "exd5" "p" "w",
   mvq "f2" "f3" "f3" "p" "w", mvb "f2" "f4" "f4" "w",
   mvq "g2" "g3" "g3" "p" "w", mvb "g2" "g4" "g4" "w",
   mvq "h2" "h3" "h3" "p" "w", mvb "h2" "h4" "h4" "w",
   mvq "b1" "a3" "Na3" "n" "w", mvq "b1" "c3" "Nc3" "n" "w",
   mvq "g1" "e2" "Ne2" "n" "w", mvq "g1" "f3" "Nf3" "n" "w",
   mvq "g1" "h3" "Nh3" "n" "w",
   mvq "f1" "e2" "Be2" "b" "w", mvq "f1" "d3" "Bd3" "b" "w",
   mvq "f1" "c4" "Bc4" "b" "w", ⟨"f1", "b5", "Bb5+", none, "b", "w", "n"⟩,
   mvq "f1" "a6" "Ba6" "b" "w",
   mvq "d1" "e2" "Qe2" "q" "w", mvq "d1" "f3" "Qf3" "q" "w",
   mvq "d1" "g4" "Qg4" "q" "w", mvq "d1" "h5" "Qh5" "q" "w",
   mvq "e1" "e2" "Ke2" "k" "w"]

def posAfterE4D5 : Position := ⟨"w", legalAfterE4D5⟩

/-! ## Remaining definitions used by the proofs -/

/-- A settled promise has been settled exactly once and the listener
has already detached (resolution happens only through `bestmove` or
the timeout, both of which call `off` first). -/
def settleInv (st : Pending) : Prop :=
  st.settles = (if st.resolved.isSome then 1 else 0) ∧
  (st.resolved.isSome → st.active = false)

/-- One step of `detectOpening`'s best-candidate fold. -/
def pickStep (best : Option OpeningMatch) (got : OpeningMatch) : Option OpeningMatch :=
  match best with
  | none => some got
  | some b => if got.matchedLen > b.matchedLen then some got else some b

/-- The claim's reading of a candidate match, following the spec's
words: a candidate's matched-move count is the number of history
positions actually compared, `min (target length) (history length)`. -/
def tryMatchSpec (oracle : List AppliedMove → List MoveV) (movesSAN : List String)
    (opening : Opening) : Option OpeningMatch :=
  match replayTokens oracle [] [] (pgnTokens opening.pgn) with
  | none => none
  | some targetSAN =>
    if prefixMismatch targetSAN movesSAN then none
    else some ⟨opening.eco, opening.name, min targetSAN.length movesSAN.length⟩

/-- The claim's selection rule, following the spec's words: among the
candidates, the first one attaining the greatest matched-move count. -/
def detectOpeningSpec (oracle : List AppliedMove → List MoveV)
    (movesSAN : List String) : Option OpeningMatch :=
  OPENINGS.foldl (fun best op =>
    match tryMatchSpec oracle movesSAN op with
    | none => best
    | some got =>
      match best with
      | none => some got
      | some b => if got.matchedLen > b.matchedLen then some got else some b) none

/-- A collaborator state in which the attempted drop is rejected as
illegal (`game.move` returns null and mutates nothing). -/
def rejectApi : BoardApi Unit :=
  ⟨fun _ _ => none, fun g _ => g, id, fun _ => "START", fun _ => false, fun _ => [],
   fun _ => 0, fun _ => "w", fun _ => ⟨"w", []⟩, ⟨"w", []⟩⟩

def zeroAna : String → AnalysisResult := fun _ => ⟨none, 0, []⟩

/-! ## Lemmas -/

lemma mem_of_mem_ite {α : Type} {x : α} {c : Prop} [Decidable c] {l1 l2 : List α}
    (h : x ∈ if c then l1 else l2) : x ∈ l1 ∨ x ∈ l2 := by
  split at h
  · exact Or.inl h
  · exact Or.inr h

/-- The under-defended rule is dead code: `after.moves()` yields only
moves of the side to move, whose colour is the opposite of `us` (the
mover), so the `attackers` filter (colour equal to the mover's) is
always empty and `attackers.length > defenders.length` never holds. -/
lemma underDefended_never_fires (move : MoveV) (before after : Position)
    (hcol : ∀ m ∈ after.movesVerbose, m.color = after.turn)
    (hturn : after.turn = "w" ∨ after.turn = "b") :
    underDefendedPhrase ∉ explainParts move before after := by
  intro hmem
  unfold explainParts at hmem
  dsimp only at hmem
  have hatk : after.movesVerbose.filter
      (fun m => m.toSq == move.toSq &&
        m.color == (if after.turn == "w" then "b" else "w")) = [] := by
    rw [List.filter_eq_nil_iff]
    intro m hm
    have hc := hcol m hm
    rcases hturn with ht | ht <;> simp [ht, hc]
  rw [hatk] at hmem
  have hgt : ¬(([] : List MoveV).length >
      (after.movesVerbose.filter (fun m => m.toSq == move.toSq &&
        !(m.color == (if after.turn == "w" then "b" else "w")))).length) := by
    simp
  rw [if_neg hgt, List.append_nil] at hmem
  rcases mem_of_mem_ite hmem with hf | hp
  · have hcontra : underDefendedPhrase =
        "Idea makes sense, but there may be a more precise square." :=
      List.mem_singleton.mp hf
    exact absurd hcontra (by decide)
  · simp only [List.mem_append] at hp
    rcases hp with ((((h | h) | h) | h) | h) | h <;>
      rcases mem_of_mem_ite h with h1 | h1 <;>
      simp_all [underDefendedPhrase]

/-! ## Invariants of the `analyze` listener machinery -/

/-- The `info ` branch only updates `lastCp` and `lines`. -/
lemma infoUpdate_preserves (st : Pending) (line : String) :
    (infoUpdate st line).settles = st.settles ∧
    (infoUpdate st line).resolved = st.resolved ∧
    (infoUpdate st line).active = st.active ∧
    (infoUpdate st line).bestmove = st.bestmove := by
  unfold infoUpdate
  cases hs : scanScore line with
  | none =>
    cases hp : scanPv line <;> cases hm : scanMulti line <;> simp
    split <;> simp
  | some v =>
    obtain ⟨isCp, hasMinus, mag⟩ := v
    cases hp : scanPv line <;> cases hm : scanMulti line <;> simp
    split <;> simp

lemma settleInv_init (legal : List MoveV) : settleInv (initPending legal) := by
  constructor <;> simp [initPending]

lemma handleLine_settleInv (st : Pending) (line : String) (h : settleInv st) :
    settleInv (handleLine st line) := by
  unfold handleLine
  by_cases he : line = ""
  · simpa [he] using h
  · rw [if_neg he]
    have hmid : settleInv (if strStartsWith line "info " then infoUpdate st line else st) := by
      by_cases hi : strStartsWith line "info "
      · obtain ⟨h1, h2, h3, _⟩ := infoUpdate_preserves st line
        simpa [hi, settleInv, h1, h2, h3] using h
      · simpa [hi] using h
    set st1 := if strStartsWith line "info " then infoUpdate st line else st with hst1
    by_cases hb : strStartsWith line "bestmove"
    · simp only [hb, if_true]
      unfold resolveP offP
      obtain ⟨hs1, _⟩ := hmid
      by_cases hr : st1.resolved.isSome <;> simp [hr, settleInv] at hs1 ⊢ <;> omega
    · simpa [hb] using hmid

lemma deliverP_settleInv (st : Pending) (line : String) (h : settleInv st) :
    settleInv (deliverP st line) := by
  unfold deliverP
  by_cases ha : st.active
  · simpa [ha] using handleLine_settleInv st line h
  · simpa [ha] using h

lemma runListener_settleInv (legal : List MoveV) (msgs : List String) :
    settleInv (runListener legal msgs) := by
  unfold runListener
  have hacc : ∀ (l : List String) (st : Pending), settleInv st →
      settleInv (l.foldl deliverP st) := by
    intro l
    induction l with
    | nil => intro st h; exact h
    | cons msg rest ih => intro st h; exact ih _ (deliverP_settleInv st msg h)
  exact hacc msgs _ (settleInv_init legal)

/-- The timeout always leaves the promise settled exactly once and the
listener detached. -/
lemma timeoutFire_settles (st : Pending) (h : settleInv st) :
    (timeoutFire st).settles = 1 ∧ (timeoutFire st).resolved.isSome = true ∧
    (timeoutFire st).active = false := by
  unfold timeoutFire resolveP offP
  obtain ⟨hs, _⟩ := h
  by_cases hr : st.resolved.isSome <;> simp [hr] at hs ⊢ <;> omega

/-! ## Invariants of the session handshake -/

lemma onMsgB_ready (elo multipv : Nat) (st : SessionState) (text : String)
    (h : (onMsgB elo multipv st text).ready = true) :
    st.ready = true ∨ strContains text "readyok" = true := by
  unfold onMsgB at h
  by_cases hr : strContains text "readyok"
  · exact Or.inr hr
  · left
    by_cases hu : strContains text "uciok" <;> simp [hr, hu] at h <;> exact h

lemma runSessionB_ready (elo multipv : Nat) (msgs : List String)
    (h : (runSessionB elo multipv msgs).ready = true) :
    ∃ m ∈ msgs, strContains m "readyok" = true := by
  unfold runSessionB at h
  have haux : ∀ (l : List String) (st : SessionState),
      (l.foldl (onMsgB elo multipv) st).ready = true →
      st.ready = true ∨ ∃ m ∈ l, strContains m "readyok" = true := by
    intro l
    induction l with
    | nil => intro st hs; exact Or.inl hs
    | cons msg rest ih =>
      intro st hs
      rcases ih _ hs with h1 | h1
      · rcases onMsgB_ready elo multipv st msg h1 with h2 | h2
        · exact Or.inl h2
        · exact Or.inr ⟨msg, by simp, h2⟩
      · obtain ⟨m, hm, hc⟩ := h1
        exact Or.inr ⟨m, by simp [hm], hc⟩
  rcases haux msgs sessionInit h with h1 | h1
  · simp [sessionInit] at h1
  · exact h1

/-- Once ready, the session stays ready. -/
lemma onMsgB_ready_mono (elo multipv : Nat) (st : SessionState) (text : String)
    (h : st.ready = true) : (onMsgB elo multipv st text).ready = true := by
  unfold onMsgB
  by_cases hr : strContains text "readyok" <;>
    by_cases hu : strContains text "uciok" <;> simp [hr, hu, h]

lemma foldB_ready_mono (elo multipv : Nat) (msgs : List String) (st : SessionState)
    (h : st.ready = true) : (msgs.foldl (onMsgB elo multipv) st).ready = true := by
  induction msgs generalizing st with
  | nil => exact h
  | cons msg rest ih => exact ih _ (onMsgB_ready_mono elo multipv st msg h)

/-- Any message containing `readyok` makes the session ready, with no
precondition on the handshake. -/
lemma onMsgB_sets_ready (elo multipv : Nat) (st : SessionState) (text : String)
    (h : strContains text "readyok" = true) :
    (onMsgB elo multipv st text).ready = true := by
  unfold onMsgB
  by_cases hu : strContains text "uciok" <;> simp [h, hu]

lemma runSessionB_ready_of_readyok (elo multipv : Nat) (msgs : List String)
    (h : ∃ m ∈ msgs, strContains m "readyok" = true) :
    (runSessionB elo multipv msgs).ready = true := by
  unfold runSessionB
  have haux : ∀ (l : List String) (st : SessionState),
      (∃ m ∈ l, strContains m "readyok" = true) →
      (l.foldl (onMsgB elo multipv) st).ready = true := by
    intro l
    induction l with
    | nil => intro st hex; simp at hex
    | cons msg rest ih =>
      intro st hex
      rcases hex with ⟨m, hm, hc⟩
      rcases List.mem_cons.mp hm with rfl | hm
      · exact foldB_ready_mono elo multipv rest _ (onMsgB_sets_ready elo multipv st m hc)
      · exact ih _ ⟨m, hm, hc⟩
  exact haux msgs sessionInit h

/-! ## The selection fold of `detectOpening` -/

lemma detectOpeningList_eq_pick (oracle : List AppliedMove → List MoveV)
    (movesSAN : List String) (ops : List Opening) (init : Option OpeningMatch) :
    ops.foldl (fun best op =>
      match tryMatch oracle movesSAN op with
      | none => best
      | some got =>
        match best with
        | none => some got
        | some b => if got.matchedLen > b.matchedLen then some got else some b) init =
    (ops.filterMap (tryMatch oracle movesSAN)).foldl pickStep init := by
  induction ops generalizing init with
  | nil => rfl
  | cons op rest ih =>
    simp only [List.foldl_cons, List.filterMap_cons]
    cases h : tryMatch oracle movesSAN op with
    | none => simp only [h]; exact ih init
    | some got => simp only [h, List.foldl_cons]; exact ih (pickStep init got)

lemma pickFold_some (l : List OpeningMatch) (b : OpeningMatch) :
    ∃ m, l.foldl pickStep (some b) = some m := by
  induction l generalizing b with
  | nil => exact ⟨b, rfl⟩
  | cons g t ih =>
    simp only [List.foldl_cons, pickStep]
    by_cases h : g.matchedLen > b.matchedLen
    · rw [if_pos h]; exact ih g
    · rw [if_neg h]; exact ih b

lemma pickFold_max (l : List OpeningMatch) (b m : OpeningMatch)
    (h : l.foldl pickStep (some b) = some m) :
    b.matchedLen ≤ m.matchedLen ∧ ∀ g ∈ l, g.matchedLen ≤ m.matchedLen := by
  induction l generalizing b with
  | nil =>
    simp only [List.foldl_nil, Option.some.injEq] at h
    subst h
    exact ⟨le_refl _, by simp⟩
  | cons g t ih =>
    simp only [List.foldl_cons, pickStep] at h
    by_cases hgb : g.matchedLen > b.matchedLen
    · rw [if_pos hgb] at h
      obtain ⟨h1, h2⟩ := ih g h
      refine ⟨le_trans (le_of_lt hgb) h1, ?_⟩
      intro x hx
      rcases List.mem_cons.mp hx with rfl | hx
      · exact h1
      · exact h2 x hx
    · rw [if_neg hgb] at h
      obtain ⟨h1, h2⟩ := ih b h
      push_neg at hgb
      refine ⟨h1, ?_⟩
      intro x hx
      rcases List.mem_cons.mp hx with rfl | hx
      · exact le_trans hgb h1
      · exact h2 x hx

lemma pickFold_first (l : List OpeningMatch) (b m : OpeningMatch)
    (h : l.foldl pickStep (some b) = some m) :
    (m = b ∧ ∀ g ∈ l, g.matchedLen ≤ b.matchedLen) ∨
    (∃ l1 l2, l = l1 ++ m :: l2 ∧ (∀ g ∈ l1, g.matchedLen < m.matchedLen) ∧
      b.matchedLen < m.matchedLen) := by
  induction l generalizing b with
  | nil =>
    simp only [List.foldl_nil, Option.some.injEq] at h
    exact Or.inl ⟨h.symm, by simp⟩
  | cons g t ih =>
    simp only [List.foldl_cons, pickStep] at h
    by_cases hgb : g.matchedLen > b.matchedLen
    · rw [if_pos hgb] at h
      rcases ih g h with ⟨rfl, hall⟩ | ⟨l1, l2, heq, hlt, hbm⟩
      · exact Or.inr ⟨[], t, by simp, by simp, hgb⟩
      · refine Or.inr ⟨g :: l1, l2, by simp [heq], ?_, lt_trans hgb hbm⟩
        intro x hx
        rcases List.mem_cons.mp hx with rfl | hx
        · exact hbm
        · exact hlt x hx
    · rw [if_neg hgb] at h
      push_neg at hgb
      rcases ih b h with ⟨rfl, hall⟩ | ⟨l1, l2, heq, hlt, hbm⟩
      · refine Or.inl ⟨rfl, ?_⟩
        intro x hx
        rcases List.mem_cons.mp hx with rfl | hx
        · exact hgb
        · exact hall x hx
      · refine Or.inr ⟨g :: l1, l2, by simp [heq], ?_, hbm⟩
        intro x hx
        rcases List.mem_cons.mp hx with rfl | hx
        · exact lt_of_le_of_lt hgb hbm
        · exact hlt x hx

lemma pickFold_none (l : List OpeningMatch) :
    l.foldl pickStep none = none ↔ l = [] := by
  cases l with
  | nil => simp
  | cons g t =>
    simp only [List.foldl_cons, pickStep]
    obtain ⟨m, hm⟩ := pickFold_some t g
    simp [hm]

/-- The length bookkeeping of the replay loop: a successful replay
returns one SAN per pgn token (plus the accumulator). -/
lemma replayTokens_length (oracle : List AppliedMove → List MoveV) :
    ∀ (toks : List String) (applied : List AppliedMove) (acc out : List String),
      replayTokens oracle applied acc toks = some out →
      out.length = acc.length + toks.length := by
  intro toks
  induction toks with
  | nil =>
    intro applied acc out h
    simp only [replayTokens, Option.some.injEq] at h
    subst h
    simp
  | cons tok rest ih =>
    intro applied acc out h
    simp only [replayTokens] at h
    cases hf : findBookMove (oracle applied) tok with
    | none => rw [hf] at h; exact absurd h (by simp)
    | some m =>
      rw [hf] at h
      have := ih _ _ _ h
      simp only [List.length_cons] at this
      simp [this]
      omega

/-! ## Claim theorems -/

/-- C1, counterexample: in the `src/App.jsx` variant `analyze`
schedules no timeout, so when the engine emits an `info` line with a
score but never a terminal `bestmove` line, the promise is never
settled (settled 0 times, not exactly once) even though partial data
(score 5) was observed — refuting the claim that a timeout fires and
resolves with the observed partial data. -/
theorem C1_counterexample :
    (runListener [] ["info depth 1 score cp 5"]).resolved = none ∧
    (runListener [] ["info depth 1 score cp 5"]).settles = 0 ∧
    (runListener [] ["info depth 1 score cp 5"]).lastCp = 5 :=
  ⟨by decide, by decide, by decide⟩

/-- C1, amended: in the movetime variant, whose timeout at
`movetime + 600` always fires, every call settles exactly once
whatever the engine emits, and with no engine output it resolves with
the neutral default (null bestmove, score 0, no variations). -/
theorem C1_exactly_once_with_timeout (legal : List MoveV) (msgs : List String) :
    (runAnalyzeB legal msgs).settles = 1 ∧
    (runAnalyzeB legal msgs).resolved.isSome = true ∧
    (runAnalyzeB legal []).resolved = some ⟨none, 0, []⟩ := by
  have hinv := runListener_settleInv legal msgs
  obtain ⟨h1, h2, _⟩ := timeoutFire_settles (runListener legal msgs) hinv
  exact ⟨h1, h2, rfl⟩

/-- C2, counterexample: starting a second `analyze` while the first is
still pending leaves two listeners subscribed (not at most one — no
detach of the prior listener happens), and a subsequent `bestmove`
line is observed by both calls, which both resolve with it. -/
theorem C2_counterexample :
    activeListeners (startAnalyzeC (startAnalyzeC ⟨[], ["uci"]⟩ [] "FEN1" "go depth 16")
      [] "FEN2" "go depth 16") = 2 ∧
    (deliverC (startAnalyzeC (startAnalyzeC ⟨[], ["uci"]⟩ [] "FEN1" "go depth 16")
        [] "FEN2" "go depth 16") "bestmove e2e4").pendings.map (fun p => p.resolved) =
      [some ⟨some "e2e4", 0, []⟩, some ⟨some "e2e4", 0, []⟩] :=
  ⟨by decide, by decide⟩

/-- C2, amended: `analyze` does not detach a prior pending listener;
instead each listener detaches itself upon resolution — a detached
listener never observes another message, and any still-subscribed
listener detaches (and its promise is settled) on a terminal
`bestmove` line. -/
theorem C2_listener_self_detach :
    (∀ (p : Pending) (line : String), p.active = false → deliverP p line = p) ∧
    (∀ (p : Pending) (line : String), p.active = true →
      strStartsWith line "bestmove" = true →
      (deliverP p line).active = false ∧ (deliverP p line).resolved.isSome = true) := by
  constructor
  · intro p line h
    unfold deliverP
    rw [if_neg (by simp [h])]
  · intro p line ha hb
    have hne : line ≠ "" := by
      intro he
      rw [he] at hb
      exact absurd hb (by decide)
    unfold deliverP
    rw [if_pos ha]
    unfold handleLine
    rw [if_neg hne]
    simp only [hb, if_true]
    unfold resolveP offP
    by_cases hr : (if strStartsWith line "info " then infoUpdate p line else p).resolved.isSome <;>
      simp [hr]

/-- C2, witness. -/
theorem C2_listener_self_detach_witness :
    (deliverP (initPending []) "bestmove a").active = false ∧
    (deliverP (initPending []) "bestmove a").resolved.isSome = true :=
  C2_listener_self_detach.2 (initPending []) "bestmove a" rfl (by decide)

/-- C3, counterexample: the `src/App.jsx` session becomes Ready on the
sole message `uciok` — no ready acknowledgment was ever received (the
message does not contain `readyok`) and no readiness probe (`isready`)
was ever issued, only the handshake, the three option commands. -/
theorem C3_counterexample :
    (runSessionA 1200 3 ["uciok"]).ready = true ∧
    (runSessionA 1200 3 ["uciok"]).sent =
      ["uci", "setoption name UCI_LimitStrength value true",
       "setoption name UCI_Elo value 1200", "setoption name MultiPV value 3"] ∧
    "isready" ∉ (runSessionA 1200 3 ["uciok"]).sent ∧
    strContains "uciok" "readyok" = false :=
  ⟨by decide, by decide, by decide, by decide⟩

/-- C3, amended: in the movetime variant the session is Ready exactly
when some received message contained the ready acknowledgment — the
ready acknowledgment alone suffices, no prior handshake acknowledgment
is required (`["readyok"]` alone yields Ready with only `uci` ever
sent); on a handshake acknowledgment the session appends exactly the
three option commands followed by the readiness probe, without
changing the ready flag. -/
theorem C3_ready_handshake :
    (∀ (elo multipv : Nat) (msgs : List String),
      (runSessionB elo multipv msgs).ready = true ↔
        ∃ m ∈ msgs, strContains m "readyok" = true) ∧
    (∀ (elo multipv : Nat) (st : SessionState) (text : String),
      strContains text "uciok" = true → strContains text "readyok" = false →
      onMsgB elo multipv st text =
        ⟨st.ready, st.sent ++ optionCmds elo multipv ++ ["isready"]⟩) ∧
    (runSessionB 1200 3 ["readyok"]).ready = true ∧
    (runSessionB 1200 3 ["readyok"]).sent = ["uci"] := by
  refine ⟨?_, ?_, by decide, by decide⟩
  · intro elo multipv msgs
    constructor
    · exact runSessionB_ready elo multipv msgs
    · exact runSessionB_ready_of_readyok elo multipv msgs
  · intro elo multipv st text hu hr
    cases st with
    | mk r s => simp [onMsgB, hu, hr]

/-- C3, witness. -/
theorem C3_ready_handshake_witness :
    (runSessionB 1200 3 ["uciok", "readyok"]).ready = true :=
  (C3_ready_handshake.1 1200 3 ["uciok", "readyok"]).mpr
    ⟨"readyok", by decide, by decide⟩

/-- C4, counterexample: with the engine object constructed but no
message ever received, the session is not Ready in either variant, yet
`analyze` does not resolve immediately with the neutral result — it
subscribes a listener (one listener registered, nothing resolved) and
sends the request, because the only guard in `analyze` is the presence
of the engine object, not readiness. -/
theorem C4_counterexample :
    (runSessionA 1200 3 []).ready = false ∧
    (runSessionB 1200 3 []).ready = false ∧
    analyzeStartA true "FEN0" 16 [] =
      .pending (initPending []) ["stop", "position fen FEN0", "go depth 16"] ∧
    listenersOf (analyzeStartA true "FEN0" 16 []) = 1 ∧
    (initPending ([] : List MoveV)).resolved = none :=
  ⟨rfl, rfl, by decide, rfl, rfl⟩

/-- C4, amended: `analyze` resolves immediately with the neutral zero
result, registering no listener, exactly when the engine capability is
absent; when the engine object exists (ready or not) it instead
registers a listener and sends stop/position/go. -/
theorem C4_absent_engine_neutral (fen : String) (d mt : Nat) (legal : List MoveV) :
    analyzeStartA false fen d legal = .immediate ⟨none, 0, []⟩ ∧
    analyzeStartB false fen mt legal = .immediate ⟨none, 0, []⟩ ∧
    listenersOf (analyzeStartA false fen d legal) = 0 ∧
    listenersOf (analyzeStartB false fen mt legal) = 0 ∧
    analyzeStartA true fen d legal =
      .pending (initPending legal)
        ["stop", "position fen " ++ fen, "go depth " ++ toString d] ∧
    listenersOf (analyzeStartA true fen d legal) = 1 :=
  ⟨rfl, rfl, rfl, rfl, rfl, rfl⟩

/-- C5: `gradeFromLoss` is the step function on `|loss| / 100` with
inclusive upper bounds 0.1 / 0.2 / 0.5 / 0.9 / 1.5 on the better
grade, and the six sample points land as the claim states. -/
theorem C5_grade_buckets (cpLoss : Int) :
    ((|cpLoss| : ℚ) / 100 ≤ 0.1 → gradeFromLoss cpLoss = "A+") ∧
    ((|cpLoss| : ℚ) / 100 ≤ 0.2 → ¬((|cpLoss| : ℚ) / 100 ≤ 0.1) →
      gradeFromLoss cpLoss = "A") ∧
    ((|cpLoss| : ℚ) / 100 ≤ 0.5 → ¬((|cpLoss| : ℚ) / 100 ≤ 0.2) →
      gradeFromLoss cpLoss = "B") ∧
    ((|cpLoss| : ℚ) / 100 ≤ 0.9 → ¬((|cpLoss| : ℚ) / 100 ≤ 0.5) →
      gradeFromLoss cpLoss = "C") ∧
    ((|cpLoss| : ℚ) / 100 ≤ 1.5 → ¬((|cpLoss| : ℚ) / 100 ≤ 0.9) →
      gradeFromLoss cpLoss = "D") ∧
    (¬((|cpLoss| : ℚ) / 100 ≤ 1.5) → gradeFromLoss cpLoss = "F") ∧
    gradeFromLoss 10 = "A+" ∧ gradeFromLoss 20 = "A" ∧ gradeFromLoss 50 = "B" ∧
    gradeFromLoss 90 = "C" ∧ gradeFromLoss 150 = "D" ∧ gradeFromLoss 151 = "F" := by
  refine ⟨?_, ?_, ?_, ?_, ?_, ?_, ?_, ?_, ?_, ?_, ?_, ?_⟩
  · intro h1
    unfold gradeFromLoss
    rw [if_pos h1]
  · intro h2 h1
    unfold gradeFromLoss
    rw [if_neg h1, if_pos h2]
  · intro h3 h2
    unfold gradeFromLoss
    have h1 : ¬((|cpLoss| : ℚ) / 100 ≤ 0.1) := fun hc => h2 (hc.trans (by norm_num))
    rw [if_neg h1, if_neg h2, if_pos h3]
  · intro h4 h3
    unfold gradeFromLoss
    have h2 : ¬((|cpLoss| : ℚ) / 100 ≤ 0.2) := fun hc => h3 (hc.trans (by norm_num))
    have h1 : ¬((|cpLoss| : ℚ) / 100 ≤ 0.1) := fun hc => h3 (hc.trans (by norm_num))
    rw [if_neg h1, if_neg h2, if_neg h3, if_pos h4]
  · intro h5 h4
    unfold gradeFromLoss
    have h3 : ¬((|cpLoss| : ℚ) / 100 ≤ 0.5) := fun hc => h4 (hc.trans (by norm_num))
    have h2 : ¬((|cpLoss| : ℚ) / 100 ≤ 0.2) := fun hc => h4 (hc.trans (by norm_num))
    have h1 : ¬((|cpLoss| : ℚ) / 100 ≤ 0.1) := fun hc => h4 (hc.trans (by norm_num))
    rw [if_neg h1, if_neg h2, if_neg h3, if_neg h4, if_pos h5]
  · intro h6
    unfold gradeFromLoss
    have h5 : ¬((|cpLoss| : ℚ) / 100 ≤ 0.9) := fun hc => h6 (hc.trans (by norm_num))
    have h4 : ¬((|cpLoss| : ℚ) / 100 ≤ 0.5) := fun hc => h6 (hc.trans (by norm_num))
    have h2 : ¬((|cpLoss| : ℚ) / 100 ≤ 0.2) := fun hc => h6 (hc.trans (by norm_num))
    have h1 : ¬((|cpLoss| : ℚ) / 100 ≤ 0.1) := fun hc => h6 (hc.trans (by norm_num))
    rw [if_neg h1, if_neg h2, if_neg h4, if_neg h5, if_neg h6]
  · unfold gradeFromLoss; norm_num
  · unfold gradeFromLoss; norm_num
  · unfold gradeFromLoss; norm_num
  · unfold gradeFromLoss; norm_num
  · unfold gradeFromLoss; norm_num
  · unfold gradeFromLoss; norm_num

/-- C5, witness. -/
theorem C5_grade_buckets_witness : gradeFromLoss 10 = "A+" :=
  (C5_grade_buckets 10).1 (by norm_num)

/-- C6, counterexample: `tryMatch` reports the full book-entry length
as `matchedLen` — for the one-move history `["e4"]` the Ruy Lopez
entry matches with `matchedLen = 5`, which exceeds the history length
1, refuting `matchedLength ≤ length of the game's move history`. -/
theorem C6_counterexample :
    tryMatch bookOracle ["e4"] ⟨"C60", "Ruy Lopez", "e4 e5 Nf3 Nc6 Bb5"⟩ =
      some ⟨"C60", "Ruy Lopez", 5⟩ ∧
    ¬((5 : Nat) ≤ (["e4"] : List String).length) :=
  ⟨by decide, by decide⟩

/-- C6, amended: a successful match's `matchedLen` equals (hence is
bounded by) the length of the book entry's token sequence; it is not
bounded by the game's move-history length. -/
theorem C6_matchedLen_entry_length (oracle : List AppliedMove → List MoveV)
    (movesSAN : List String) (op : Opening) (m : OpeningMatch)
    (h : tryMatch oracle movesSAN op = some m) :
    m.matchedLen = (pgnTokens op.pgn).length := by
  unfold tryMatch at h
  cases hr : replayTokens oracle [] [] (pgnTokens op.pgn) with
  | none => rw [hr] at h; exact absurd h (by simp)
  | some tgt =>
    rw [hr] at h
    by_cases hm : prefixMismatch tgt movesSAN
    · simp [hm] at h
    · simp only [hm, if_false, Option.some.injEq, Bool.false_eq_true] at h
      have hlen := replayTokens_length oracle (pgnTokens op.pgn) [] [] tgt hr
      rw [← h]
      simpa using hlen

/-- C6, witness. -/
theorem C6_matchedLen_entry_length_witness :
    (⟨"C60", "Ruy Lopez", 5⟩ : OpeningMatch).matchedLen =
      (pgnTokens "e4 e5 Nf3 Nc6 Bb5").length :=
  C6_matchedLen_entry_length bookOracle ["e4"] ⟨"C60", "Ruy Lopez", "e4 e5 Nf3 Nc6 Bb5"⟩
    ⟨"C60", "Ruy Lopez", 5⟩ (by decide)

/-- C7, counterexample: on the history `["e4","e5","Nf3"]` the
spec's selection rule (greatest number of compared matched moves,
first on tie) picks the King's Knight Opening (C40, 3 matched moves),
but the code picks the Italian Game (C50) because it maximises the
full entry length 5 — the two selections differ. -/
theorem C7_counterexample :
    detectOpening bookOracle ["e4", "e5", "Nf3"] = some ⟨"C50", "Italian Game", 5⟩ ∧
    detectOpeningSpec bookOracle ["e4", "e5", "Nf3"] =
      some ⟨"C40", "King's Knight Opening", 3⟩ ∧
    detectOpening bookOracle ["e4", "e5", "Nf3"] ≠
      detectOpeningSpec bookOracle ["e4", "e5", "Nf3"] :=
  ⟨by decide, by decide, by decide⟩

/-- C7, amended: the matcher returns null exactly when no candidate
matches (e.g. for `["a3"]`); a returned match is the first candidate
attaining the greatest `matchedLen` — the full replayed entry length,
not the compared-prefix length — with earlier candidates strictly
smaller and later ones no greater, ties keeping the earlier entry
(e.g. `["e4"]` yields the Italian Game over the equally long
Ruy Lopez). -/
theorem C7_selection_rule :
    (∀ (oracle : List AppliedMove → List MoveV) (movesSAN : List String),
      detectOpening oracle movesSAN = none ↔
        ∀ op ∈ OPENINGS, tryMatch oracle movesSAN op = none) ∧
    (∀ (oracle : List AppliedMove → List MoveV) (movesSAN : List String)
      (m : OpeningMatch),
      detectOpening oracle movesSAN = some m →
      ∃ l1 l2, OPENINGS.filterMap (tryMatch oracle movesSAN) = l1 ++ m :: l2 ∧
        (∀ g ∈ l1, g.matchedLen < m.matchedLen) ∧
        (∀ g ∈ l2, g.matchedLen ≤ m.matchedLen)) ∧
    detectOpening bookOracle ["a3"] = none ∧
    detectOpening bookOracle ["e4"] = some ⟨"C50", "Italian Game", 5⟩ := by
  refine ⟨?_, ?_, by decide, by decide⟩
  · intro oracle movesSAN
    unfold detectOpening detectOpeningList
    rw [detectOpeningList_eq_pick, pickFold_none]
    exact List.filterMap_eq_nil_iff
  · intro oracle movesSAN m h
    unfold detectOpening detectOpeningList at h
    rw [detectOpeningList_eq_pick] at h
    cases hs : OPENINGS.filterMap (tryMatch oracle movesSAN) with
    | nil => rw [hs] at h; simp at h
    | cons g0 t =>
      rw [hs] at h
      simp only [List.foldl_cons, pickStep] at h
      obtain ⟨hg0, hmax⟩ := pickFold_max t g0 m h
      rcases pickFold_first t g0 m h with ⟨rfl, hall⟩ | ⟨l1, l2, heq, hlt, hbm⟩
      · exact ⟨[], t, by simp, by simp, hall⟩
      · refine ⟨g0 :: l1, l2, by simp [heq], ?_, ?_⟩
        · intro x hx
          rcases List.mem_cons.mp hx with rfl | hx
          · exact hbm
          · exact hlt x hx
        · intro x hx
          exact hmax x (by rw [heq]; exact List.mem_append_right _ (List.mem_cons_of_mem _ hx))

/-- C7, witness. -/
theorem C7_selection_rule_witness :
    ∃ l1 l2, OPENINGS.filterMap (tryMatch bookOracle ["e4"]) =
      l1 ++ (⟨"C50", "Italian Game", 5⟩ : OpeningMatch) :: l2 ∧
      (∀ g ∈ l1, g.matchedLen < (⟨"C50", "Italian Game", 5⟩ : OpeningMatch).matchedLen) ∧
      (∀ g ∈ l2, g.matchedLen ≤ (⟨"C50", "Italian Game", 5⟩ : OpeningMatch).matchedLen) :=
  C7_selection_rule.2.1 bookOracle ["e4"] ⟨"C50", "Italian Game", 5⟩ (by decide)

/-- C8: the under-defended rule is dead code — on the position after
1.e4 d5, the claim's condition holds (one opposing legal move lands on
the destination d5, namely e4xd5, against zero of the mover's own
moves landing there), yet the produced note does not contain the
under-defended phrase: both of the code's counts are filtered from
`after.moves()`, whose moves all belong to the side to move, so the
code's "attackers" count (moves coloured like the mover) is always 0
and the phrase is never emitted. -/
theorem C8_underdefended_dead :
    (legalAfterE4D5.filter (fun m => m.toSq == "d5" && m.color == "w")).length = 1 ∧
    (legalAfterE4D5.filter (fun m => m.toSq == "d5" && m.color == "b")).length = 0 ∧
    underDefendedPhrase ∉ explainParts moveD5 posAfterE4 posAfterE4D5 ∧
    explainHeuristic moveD5 posAfterE4 posAfterE4D5 = "You fought for the center." :=
  ⟨by decide, by decide, by decide, by decide⟩

/-- C9, counterexample: in the unnamed (movetime) variant the pre-move
analysis request is issued before the move's legality is known, so a
rejected move still has a side effect — one engine analysis request —
refuting "without side effects (… no engine analysis issued)". -/
theorem C9_counterexample :
    onPieceDropB rejectApi true zeroAna () "e2" "e5" =
      (false, (), [Effect.analyzeReq "START"], []) ∧
    ([Effect.analyzeReq "START"] : List Effect) ≠ [] :=
  ⟨by decide, by decide⟩

/-- C9, amended: an illegal user move appends no coaching record,
leaves the game state unchanged and yields false in both variants; the
`src/App.jsx` handler has no effects at all, while the movetime
variant has already issued exactly the one pre-move analysis request
(when the engine is ready) before the rejection. -/
theorem C9_illegal_move_aborts {G : Type} (api : BoardApi G) (ready : Bool)
    (ana : String → AnalysisResult) (g : G) (s t : String)
    (h : api.move g (userMoveObj s t) = none) :
    onPieceDropA api ready ana g s t = (false, g, [], []) ∧
    onPieceDropB api ready ana g s t =
      (false, g, (if ready then [Effect.analyzeReq (api.fen g)] else []), []) := by
  constructor
  · unfold onPieceDropA
    dsimp only
    rw [h]
  · unfold onPieceDropB
    dsimp only
    rw [h]

/-- C9, witness. -/
theorem C9_illegal_move_aborts_witness :
    onPieceDropA rejectApi true zeroAna () "e2" "e5" = (false, (), [], []) ∧
    onPieceDropB rejectApi true zeroAna () "e2" "e5" =
      (false, (), (if true then [Effect.analyzeReq (rejectApi.fen ())] else []), []) :=
  C9_illegal_move_aborts rejectApi true zeroAna () "e2" "e5" rfl

/-- C10: the move object submitted by the user-move entry point always
carries promotion "q" — every promotion through this path is to a
queen and no under-promotion is reachable. -/
theorem C10_promotion_queen (sourceSquare targetSquare : String) :
    (userMoveObj sourceSquare targetSquare).promotion = "q" ∧
    (userMoveObj sourceSquare targetSquare).promotion ≠ "r" ∧
    (userMoveObj sourceSquare targetSquare).promotion ≠ "b" ∧
    (userMoveObj sourceSquare targetSquare).promotion ≠ "n" :=
  ⟨rfl, by simp [userMoveObj], by simp [userMoveObj], by simp [userMoveObj]⟩

end ChessCoach
